import Mathlib

/-!
Verification of the izidic dependency-injection container (package izidic,
file izidic.go) against its natural-language specification.

The embedding mirrors the Go source:

* Go `any` values held by the container are modelled by `Value`.
* A service factory (`type Service func(dic Container) (any, error)`) is
  modelled by the deep embedding `Service`: a factory either returns a value,
  returns an error, or calls back into the container (`Param` / `Service`)
  and continues with the observed result, exactly the interface Go factories
  have.
* The `container` struct is a record with the `frozen` flag and the three
  tables `parameters`, `serviceDefs` and `services`; Go maps become
  association lists with replace-on-insert semantics (`alPut`), so the list
  length matches Go's `len` on maps with distinct keys.
* `container.Service` is fuel-based: the Go method recurses through factory
  bodies, and its stack-frame count (`runtime.Callers` counting active
  `Service` frames, the current one included) is threaded explicitly as the
  `depth` argument: a call running with `depth` enclosing active `Service`
  invocations checks `depth + 1 > len(serviceDefs)` before invoking the
  factory, exactly the source's loop-detection test.
* Go `panic` in `Store`/`Register` (string message) and in `MustParam`
  (error value) is modelled by returning the panic payload in an error/sum
  position; the Go code panics before mutating, which the embedding renders
  by returning no new state.
* Runs additionally record a ghost log of observable events: a factory
  invocation, the circular-dependency branch firing, and a write to the
  memoization cache.  The log does not influence the computation; it only
  makes invocation counts and branch reachability statable.
-/

set_option maxHeartbeats 1000000

namespace izidic

/-- Values stored in the container; Go's `any` restricted to the shapes the
repository's tests use (strings, integers, nil). -/
inductive Value where
  | vnil : Value
  | vint : Int → Value
  | vstr : String → Value
  deriving DecidableEq

/-- Observable events of a resolution run (ghost instrumentation):
`invoke n` when the factory registered under `n` is invoked, `cycle n` when
the circular-dependency branch fires while resolving `n`, and `write n v`
when `v` is written into the `services` cache under `n`. -/
inductive Event where
  | invoke : String → Event
  | cycle : String → Event
  | write : String → Value → Event
  deriving DecidableEq

/-- Deep embedding of Go's `type Service func(dic Container) (any, error)`:
a factory body returns a value, fails with an error message, or calls back
into the container and continues with the observed `(value, error)` result. -/
inductive Service where
  | ret : Value → Service
  | fail : String → Service
  | callParam : String → (Except String Value → Service) → Service
  | callService : String → (Except String Value → Service) → Service

/-- The `container` struct of izidic.go: the lifecycle flag and the three
tables (parameter values, service factory definitions, memoized instances). -/
structure container where
  frozen : Bool
  parameters : List (String × Value)
  serviceDefs : List (String × Service)
  services : List (String × Value)

/-- Map lookup (`m[name]`) on an association list. -/
def alGet {α : Type} : List (String × α) → String → Option α
  | [], _ => none
  | (k, v) :: t, n => if k = n then some v else alGet t n

/-- Map insertion (`m[name] = v`) on an association list: replaces the
existing binding in place, otherwise appends, so keys stay distinct. -/
def alPut {α : Type} : List (String × α) → String → α → List (String × α)
  | [], n, v => [(n, v)]
  | (k, w) :: t, n, v => if k = n then (k, v) :: t else (k, w) :: alPut t n v

/-- Keys of an association list, mirroring ranging over a Go map's keys. -/
def keys {α : Type} (l : List (String × α)) : List String := l.map Prod.fst

/-- Function `New` of izidic.go: an empty, unfrozen container. -/
def New : container := ⟨false, [], [], []⟩

/-- Method `Freeze` of izidic.go: sets the `frozen` flag. -/
def container.Freeze (dic : container) : container := { dic with frozen := true }

/-- Method `Param` of izidic.go: looks `name` up in `parameters`; when the
name is absent it returns the error `parameter not found: "<name>"`
(Go `fmt.Errorf` with `%q`). -/
def container.Param (dic : container) (name : String) : Except String Value :=
  match alGet dic.parameters name with
  | some p => .ok p
  | none => .error ("parameter not found: \"" ++ name ++ "\"")

/-- Result of a `Must*` accessor: either the value, or the message of the
`panic` the Go method raises. -/
inductive MustOutcome where
  | value : Value → MustOutcome
  | panicked : String → MustOutcome
  deriving DecidableEq

/-- Method `MustParam` of izidic.go: returns `Param`'s value, and panics with
`Param`'s error when there is one. -/
def container.MustParam (dic : container) (name : String) : MustOutcome :=
  match dic.Param name with
  | .ok p => .value p
  | .error e => .panicked e

/-- Method `Store` of izidic.go: panics (modelled by `.error` carrying the
panic message, with no state produced) on a frozen container, otherwise
inserts/overwrites the parameter. -/
def container.Store (dic : container) (name : String) (param : Value) :
    Except String container :=
  if dic.frozen then .error "Cannot store parameters on frozen container"
  else .ok { dic with parameters := alPut dic.parameters name param }

/-- Method `Register` of izidic.go: panics (modelled as in `Store`) on a
frozen container, otherwise inserts/overwrites the factory definition. -/
def container.Register (dic : container) (name : String) (fn : Service) :
    Except String container :=
  if dic.frozen then .error "Cannot register services on frozen container"
  else .ok { dic with serviceDefs := alPut dic.serviceDefs name fn }

/-- Method `Names` of izidic.go: a map with exactly the keys `params` and
`services`, holding the sorted (Go `sort.Strings`) names of the
`parameters` and `serviceDefs` tables; the `services` cache is not read. -/
def container.Names (dic : container) : List (String × List String) :=
  [("params", (keys dic.parameters).insertionSort (· ≤ ·)),
   ("services", (keys dic.serviceDefs).insertionSort (· ≤ ·))]

/-- Result of one resolution step: the updated container, the ghost event
log, and the `(any, error)` result. -/
structure Outcome where
  st : container
  log : List Event
  res : Except String Value

/-- A pending computation: either a factory body being executed, or a
`dic.Service(name)` call. -/
inductive Call where
  | factory : Service → Call
  | service : String → Call

/-- Interpreter for resolution, mirroring method `Service` of izidic.go.
`depth` is the number of enclosing active `Service` invocations (the Go code
obtains `depth + 1`, the count including the current frame, from
`runtime.Callers`).  `fuel` only bounds the recursion for totality: `none`
means fuel ran out, never a behavior of the Go code.  The `.service` case
follows the source line by line: memoized fast path, `serviceDefs` lookup
with the `service not found: "<name>"` error, the loop-detection test
`depth + 1 > len(serviceDefs)` yielding `circular dependency detected`,
factory invocation, error wrapping
(`failed instantiating service <name>: <err>`), and the cache write. -/
def run : Nat → container → Nat → Call → Option Outcome
  | 0, _, _, _ => none
  | fuel + 1, dic, depth, .factory p =>
    match p with
    | .ret v => some ⟨dic, [], .ok v⟩
    | .fail m => some ⟨dic, [], .error m⟩
    | .callParam n k => run fuel dic depth (.factory (k (dic.Param n)))
    | .callService n k =>
      match run fuel dic depth (.service n) with
      | none => none
      | some o1 =>
        match run fuel o1.st depth (.factory (k o1.res)) with
        | none => none
        | some o2 => some ⟨o2.st, o1.log ++ o2.log, o2.res⟩
  | fuel + 1, dic, depth, .service name =>
    match alGet dic.services name with
    | some inst => some ⟨dic, [], .ok inst⟩
    | none =>
      match alGet dic.serviceDefs name with
      | none => some ⟨dic, [], .error ("service not found: \"" ++ name ++ "\"")⟩
      | some fn =>
        if depth + 1 > dic.serviceDefs.length then
          some ⟨dic, [Event.cycle name], .error "circular dependency detected"⟩
        else
          match run fuel dic (depth + 1) (.factory fn) with
          | none => none
          | some o =>
            match o.res with
            | .error e =>
              some ⟨o.st, Event.invoke name :: o.log,
                    .error ("failed instantiating service " ++ name ++ ": " ++ e)⟩
            | .ok v =>
              some ⟨{ o.st with services := alPut o.st.services name v },
                    Event.invoke name :: (o.log ++ [Event.write name v]),
                    .ok v⟩

/-- Method `Service` of izidic.go, entered with `depth` enclosing active
`Service` invocations (`0` for a top-level call). -/
def container.Service (dic : container) (fuel depth : Nat) (name : String) :
    Option Outcome :=
  run fuel dic depth (.service name)

/-- Method `MustService` of izidic.go: returns `Service`'s value and panics
with its error. -/
def container.MustService (dic : container) (fuel depth : Nat) (name : String) :
    Option MustOutcome :=
  (dic.Service fuel depth name).map fun o =>
    match o.res with
    | .ok v => .value v
    | .error e => .panicked e

/-- Projection to the `(any, error)` result of a run. -/
def resultOf (x : Option Outcome) : Option (Except String Value) := x.map Outcome.res

/-- Projection to the ghost event log of a run. -/
def logOf (x : Option Outcome) : List Event := (x.map Outcome.log).getD []

/-- Count of invocations of the factory registered under `n` in a log. -/
def invokeCount (log : List Event) (n : String) : Nat :=
  log.countP fun e => e = Event.invoke n

/-- Values written to the cache under `n`, in order of writing. -/
def writesTo (log : List Event) (n : String) : List Value :=
  log.filterMap fun e =>
    match e with
    | .write m v => if m = n then some v else none
    | _ => none

/-- Check that the circular-dependency branch never fired in a log. -/
def cycleFree (log : List Event) : Bool :=
  log.all fun e =>
    match e with
    | .cycle _ => false
    | _ => true

deriving instance DecidableEq for Except

/-! Concrete scenarios, taken from the repository's own tests. -/

/-- Factory `s1` of the repository's tests: returns the string `s1`. -/
def s1fn : Service := .ret (.vstr "s1")

/-- Factory `s2` of the repository's tests: resolves `s1`, wraps its error,
and appends `s2` to its string value. -/
def s2fn : Service := .callService "s1" fun r =>
  match r with
  | .error e => .fail ("could not get service s1: " ++ e)
  | .ok (.vstr s) => .ret (.vstr (s ++ "s2"))
  | .ok _ => .fail "unexpected type for s1"

/-- Container of `TestContainer_Service`: services `s1` and `s2` registered,
nothing resolved yet. -/
def testDic : container := ⟨false, [], [("s1", s1fn), ("s2", s2fn)], []⟩

/-- Pathological factory for `a`: resolves `b`; on error it returns 1, on
success it returns 2 (a factory may legitimately treat a dependency as
optional and swallow the error). -/
def paFn : Service := .callService "b" fun r =>
  match r with
  | .error _ => .ret (.vint 1)
  | .ok _ => .ret (.vint 2)

/-- Pathological factory for `b`: resolves `a`, ignores the result, and
returns 3. -/
def pbFn : Service := .callService "a" fun _ => .ret (.vint 3)

/-- Container with the mutually dependent `a` and `b` above plus an unused
third service `c` (so the loop-detection threshold is 3). -/
def pathoDic : container :=
  ⟨false, [], [("a", paFn), ("b", pbFn), ("c", .ret .vnil)], []⟩

/-- First top-level `Service("a")` call on `pathoDic`. -/
def pathoRun1 : Option Outcome := pathoDic.Service 30 0 "a"

/-- Second top-level `Service("a")` call, from the first call's state. -/
def pathoRun2 : Option Outcome := pathoRun1.bind fun o => o.st.Service 30 0 "a"

/-! Lemmas about the association-list map operations. -/

/-- Looking up the key just inserted returns the inserted value. -/
theorem alGet_put_self {α : Type} (l : List (String × α)) (n : String) (v : α) :
    alGet (alPut l n v) n = some v := by
  induction l with
  | nil => simp [alPut, alGet]
  | cons h t ih =>
    obtain ⟨k, w⟩ := h
    by_cases hk : k = n
    · simp [alPut, hk, alGet]
    · simp [alPut, hk, alGet, ih]

/-- Insertion at one key does not change lookups at another. -/
theorem alGet_put_other {α : Type} (l : List (String × α)) (n m : String) (v : α)
    (h : n ≠ m) : alGet (alPut l n v) m = alGet l m := by
  induction l with
  | nil => simp [alPut, alGet, h]
  | cons p t ih =>
    obtain ⟨k, w⟩ := p
    by_cases hk : k = n
    · subst hk
      simp [alPut, alGet, h]
    · simp [alPut, hk, alGet, ih]

/-- Keys with a binding are members of the key list. -/
theorem mem_keys_of_alGet {α : Type} (l : List (String × α)) (n : String)
    (h : (alGet l n).isSome = true) : n ∈ keys l := by
  induction l with
  | nil => simp [alGet] at h
  | cons p t ih =>
    obtain ⟨k, w⟩ := p
    by_cases hk : k = n
    · subst hk; simp [keys]
    · simp only [alGet, if_neg hk] at h
      simp [keys] at ih ⊢
      exact Or.inr (ih h)

/-- Nonempty lookup forces a nonempty table. -/
theorem length_pos_of_alGet {α : Type} (l : List (String × α)) (n : String) (x : α)
    (h : alGet l n = some x) : 0 < l.length := by
  cases l with
  | nil => simp [alGet] at h
  | cons p t => simp

/-! General lemmas about resolution runs. -/

/-- Resolution only ever mutates the `services` cache: the `frozen` flag and
the `parameters` and `serviceDefs` tables of the resulting state are those of
the starting state. -/
theorem run_preserves_tables (fuel : Nat) :
    ∀ (dic : container) (depth : Nat) (c : Call) (o : Outcome),
      run fuel dic depth c = some o →
      o.st.serviceDefs = dic.serviceDefs ∧ o.st.parameters = dic.parameters ∧
        o.st.frozen = dic.frozen := by
  induction fuel with
  | zero => intro dic depth c o h; simp [run] at h
  | succ fuel ih =>
    intro dic depth c o h
    cases c with
    | factory p =>
      cases p with
      | ret v =>
        simp only [run, Option.some.injEq] at h
        subst h; exact ⟨rfl, rfl, rfl⟩
      | fail m =>
        simp only [run, Option.some.injEq] at h
        subst h; exact ⟨rfl, rfl, rfl⟩
      | callParam n k =>
        simp only [run] at h
        exact ih _ _ _ _ h
      | callService n k =>
        simp only [run] at h
        split at h
        · exact absurd h (by simp)
        next o1 h1 =>
          split at h
          · exact absurd h (by simp)
          next o2 h2 =>
            injection h with h
            subst h
            obtain ⟨d1, p1, f1⟩ := ih _ _ _ _ h1
            obtain ⟨d2, p2, f2⟩ := ih _ _ _ _ h2
            exact ⟨d2.trans d1, p2.trans p1, f2.trans f1⟩
    | service name =>
      simp only [run] at h
      split at h
      next inst hc =>
        injection h with h
        subst h; exact ⟨rfl, rfl, rfl⟩
      next hc =>
        split at h
        next hd =>
          injection h with h
          subst h; exact ⟨rfl, rfl, rfl⟩
        next fn hd =>
          split at h
          · injection h with h
            subst h; exact ⟨rfl, rfl, rfl⟩
          · split at h
            · exact absurd h (by simp)
            next o1 hr =>
              split at h
              next e hres =>
                injection h with h
                subst h
                obtain ⟨d1, p1, f1⟩ := ih _ _ _ _ hr
                exact ⟨d1, p1, f1⟩
              next v hres =>
                injection h with h
                subst h
                obtain ⟨d1, p1, f1⟩ := ih _ _ _ _ hr
                exact ⟨d1, p1, f1⟩

/-- Resolution never removes or overwrites a cache entry that was present
when the run started: every `services` binding present at entry is intact,
with the same value, in the resulting state. -/
theorem run_preserves_cached (fuel : Nat) :
    ∀ (dic : container) (depth : Nat) (c : Call) (o : Outcome) (m : String) (w : Value),
      run fuel dic depth c = some o →
      alGet dic.services m = some w → alGet o.st.services m = some w := by
  induction fuel with
  | zero => intro dic depth c o m w h; simp [run] at h
  | succ fuel ih =>
    intro dic depth c o m w h hm
    cases c with
    | factory p =>
      cases p with
      | ret v =>
        simp only [run, Option.some.injEq] at h
        subst h; exact hm
      | fail msg =>
        simp only [run, Option.some.injEq] at h
        subst h; exact hm
      | callParam n k =>
        simp only [run] at h
        exact ih _ _ _ _ _ _ h hm
      | callService n k =>
        simp only [run] at h
        split at h
        · exact absurd h (by simp)
        next o1 h1 =>
          split at h
          · exact absurd h (by simp)
          next o2 h2 =>
            injection h with h
            subst h
            have hm2 := ih _ _ _ _ _ _ h2 (ih _ _ _ _ _ _ h1 hm)
            exact hm2
    | service name =>
      simp only [run] at h
      split at h
      next inst hc =>
        injection h with h
        subst h; exact hm
      next hc =>
        split at h
        next hd =>
          injection h with h
          subst h; exact hm
        next fn hd =>
          split at h
          · injection h with h
            subst h; exact hm
          · split at h
            · exact absurd h (by simp)
            next o1 hr =>
              have hm1 : alGet o1.st.services m = some w := ih _ _ _ _ _ _ hr hm
              split at h
              next e hres =>
                injection h with h
                subst h
                exact hm1
              next v hres =>
                injection h with h
                subst h
                have hne : name ≠ m := by
                  intro heq; subst heq; rw [hc] at hm; cases hm
                have : alGet (alPut o1.st.services name v) m = alGet o1.st.services m :=
                  alGet_put_other _ _ _ _ hne
                exact this.trans hm1

/-- Provenance of cache entries: after any resolution run, every `services`
binding either was already present with that value when the run started, or
is for a name registered in `serviceDefs` and holds the result of an
invocation of the factory registered under that name. -/
theorem run_cache_provenance (fuel : Nat) :
    ∀ (dic : container) (depth : Nat) (c : Call) (o : Outcome) (n : String) (v : Value),
      run fuel dic depth c = some o →
      alGet o.st.services n = some v →
      alGet dic.services n = some v ∨
        ∃ fn, alGet dic.serviceDefs n = some fn ∧
          ∃ g s d o', run g s d (.factory fn) = some o' ∧ o'.res = .ok v := by
  induction fuel with
  | zero => intro dic depth c o n v h _; simp [run] at h
  | succ fuel ih =>
    intro dic depth c o n v h hn
    cases c with
    | factory p =>
      cases p with
      | ret w =>
        simp only [run, Option.some.injEq] at h
        subst h; exact Or.inl hn
      | fail msg =>
        simp only [run, Option.some.injEq] at h
        subst h; exact Or.inl hn
      | callParam pn k =>
        simp only [run] at h
        exact ih _ _ _ _ _ _ h hn
      | callService m k =>
        simp only [run] at h
        split at h
        · exact absurd h (by simp)
        next o1 h1 =>
          split at h
          · exact absurd h (by simp)
          next o2 h2 =>
            injection h with h
            subst h
            rcases ih _ _ _ _ _ _ h2 hn with hcase | hcase
            · rcases ih _ _ _ _ _ _ h1 hcase with hcase1 | hcase1
              · exact Or.inl hcase1
              · exact Or.inr hcase1
            · obtain ⟨fn, hfn, hinv⟩ := hcase
              refine Or.inr ⟨fn, ?_, hinv⟩
              rw [← (run_preserves_tables fuel dic depth _ o1 h1).1]
              exact hfn
    | service name =>
      simp only [run] at h
      split at h
      next inst hcache =>
        injection h with h
        subst h; exact Or.inl hn
      next hcache =>
        split at h
        next hd =>
          injection h with h
          subst h; exact Or.inl hn
        next fn hd =>
          split at h
          · injection h with h
            subst h; exact Or.inl hn
          · split at h
            · exact absurd h (by simp)
            next o1 hr =>
              split at h
              next e hres =>
                injection h with h
                subst h
                rcases ih _ _ _ _ _ _ hr hn with hc | hc
                · exact Or.inl hc
                · exact Or.inr hc
              next v1 hres =>
                injection h with h
                subst h
                have hn' : alGet (alPut o1.st.services name v1) n = some v := hn
                by_cases hne : name = n
                · subst hne
                  rw [alGet_put_self] at hn'
                  injection hn' with hn'
                  subst hn'
                  exact Or.inr ⟨fn, hd, fuel, dic, depth + 1, o1, hr, hres⟩
                · rw [alGet_put_other _ _ _ _ hne] at hn'
                  rcases ih _ _ _ _ _ _ hr hn' with hc | hc
                  · exact Or.inl hc
                  · exact Or.inr hc

/-- At every successful resolution call the returned value is the one left in
the cache under the resolved name. -/
theorem Service_ok_cached (fuel : Nat) (dic : container) (depth : Nat)
    (name : String) (o : Outcome) (v : Value)
    (h : run fuel dic depth (.service name) = some o) (hres : o.res = .ok v) :
    alGet o.st.services name = some v := by
  cases fuel with
  | zero => simp [run] at h
  | succ fuel =>
    simp only [run] at h
    split at h
    next inst hc =>
      injection h with h
      subst h
      simp only at hres
      injection hres with hres
      rw [hc, hres]
    next hc =>
      split at h
      next hd =>
        injection h with h
        subst h; simp at hres
      next fn hd =>
        split at h
        · injection h with h
          subst h; simp at hres
        · split at h
          · exact absurd h (by simp)
          next o1 hr =>
            split at h
            next e hres1 =>
              injection h with h
              subst h; simp at hres
            next v1 hres1 =>
              injection h with h
              subst h
              simp only at hres
              injection hres with hres
              subst hres
              exact alGet_put_self _ _ _

/-- Memoized fast path: a `Service` call on a name already in the cache
returns the cached value, mutates nothing, and produces no events at all. -/
theorem Service_fastPath (dic : container) (fuel depth : Nat) (name : String)
    (v : Value) (h : alGet dic.services name = some v) :
    dic.Service (fuel + 1) depth name = some ⟨dic, [], .ok v⟩ := by
  simp [container.Service, run, h]

/-- Container of `TestContainer_Service_Failing`: one service `s` whose
factory always returns the error `failed`. -/
def failDic : container := ⟨false, [], [("s", .fail "failed")], []⟩

/-- First top-level `Service("s2")` call on `testDic`. -/
def testRun1 : Option Outcome := testDic.Service 30 0 "s2"

/-- Second top-level `Service("s2")` call, from the first call's state. -/
def testRun2 : Option Outcome := testRun1.bind fun o => o.st.Service 30 0 "s2"

/-- Container where service `s1` has already been resolved and cached. -/
def resolvedDic : container :=
  ⟨false, [], [("s1", s1fn)], [("s1", .vstr "s1")]⟩

/-- A replacement factory registered over an already-resolved name. -/
def newS1fn : Service := .ret (.vstr "NEW")

/-- A run of a failing factory body leaves the resolved name uncached: as
long as the factory registered under `name` fails on every invocation, no
resolution step can write a `services` entry for `name`. -/
theorem run_no_cache_of_failing (name : String) (body : Service) (e : String)
    (herr : ∀ fuel s d o, run fuel s d (.factory body) = some o → o.res = .error e)
    (fuel : Nat) :
    ∀ (dic : container) (depth : Nat) (c : Call) (o : Outcome),
      alGet dic.serviceDefs name = some body →
      alGet dic.services name = none →
      run fuel dic depth c = some o →
      alGet o.st.services name = none := by
  induction fuel with
  | zero => intro dic depth c o _ _ h; simp [run] at h
  | succ fuel ih =>
    intro dic depth c o hdef hnone h
    cases c with
    | factory p =>
      cases p with
      | ret v =>
        simp only [run, Option.some.injEq] at h
        subst h; exact hnone
      | fail m =>
        simp only [run, Option.some.injEq] at h
        subst h; exact hnone
      | callParam n k =>
        simp only [run] at h
        exact ih _ _ _ _ hdef hnone h
      | callService n k =>
        simp only [run] at h
        split at h
        · exact absurd h (by simp)
        next o1 h1 =>
          split at h
          · exact absurd h (by simp)
          next o2 h2 =>
            injection h with h
            subst h
            have hdef1 : alGet o1.st.serviceDefs name = some body := by
              rw [(run_preserves_tables fuel dic depth _ o1 h1).1]; exact hdef
            have hnone1 := ih _ _ _ _ hdef hnone h1
            have hres := ih _ _ _ _ hdef1 hnone1 h2
            exact hres
    | service n =>
      simp only [run] at h
      split at h
      next inst hcache =>
        injection h with h
        subst h; exact hnone
      next hcache =>
        split at h
        next hd =>
          injection h with h
          subst h; exact hnone
        next fn hd =>
          split at h
          · injection h with h
            subst h; exact hnone
          · split at h
            · exact absurd h (by simp)
            next o1 hr =>
              have hnone1 := ih _ _ _ _ hdef hnone hr
              split at h
              next e1 hres1 =>
                injection h with h
                subst h; exact hnone1
              next v1 hres1 =>
                injection h with h
                subst h
                by_cases hn : n = name
                · subst hn
                  have hfb : body = fn := by
                    have := hdef.symm.trans hd
                    injection this
                  subst hfb
                  have hcontr := herr fuel dic (depth + 1) o1 hr
                  rw [hres1] at hcontr
                  simp at hcontr
                · have : alGet (alPut o1.st.services n v1) name =
                      alGet o1.st.services name := alGet_put_other _ _ _ _ hn
                  exact this.trans hnone1

/-- A `Service` call on an uncached but registered name always reaches the
factory invocation: its log records an `invoke` event for the name. -/
theorem Service_invokes (dic : container) (name : String) (fn : Service)
    (g : Nat) (o : Outcome)
    (hnone : alGet dic.services name = none)
    (hdef : alGet dic.serviceDefs name = some fn)
    (h : dic.Service g 0 name = some o) :
    Event.invoke name ∈ o.log := by
  cases g with
  | zero => simp [container.Service, run] at h
  | succ g =>
    simp only [container.Service, run] at h
    split at h
    next inst hcache =>
      rw [hnone] at hcache
      simp at hcache
    next hcache =>
      split at h
      next hd2 =>
        rw [hdef] at hd2
        simp at hd2
      next fn2 hd2 =>
        split at h
        next hgt =>
          have hpos := length_pos_of_alGet _ _ _ hdef
          omega
        next hgt =>
          split at h
          · exact absurd h (by simp)
          next o1 hr =>
            split at h
            next e1 hres1 =>
              injection h with h
              subst h
              simp
            next v1 hres1 =>
              injection h with h
              subst h
              simp

/-! Step equations for single resolution steps, used to evaluate runs
symbolically. -/

/-- Step: a factory body that fails returns its error unchanged. -/
theorem run_factory_fail (fuel : Nat) (dic : container) (depth : Nat) (m : String) :
    run (fuel + 1) dic depth (.factory (.fail m)) = some ⟨dic, [], .error m⟩ := by
  simp [run]

/-- Step: a factory body that returns does so with no events. -/
theorem run_factory_ret (fuel : Nat) (dic : container) (depth : Nat) (v : Value) :
    run (fuel + 1) dic depth (.factory (.ret v)) = some ⟨dic, [], .ok v⟩ := by
  simp [run]

/-- Step: a factory body calling `Service` continues with the observed
outcome, concatenating the logs. -/
theorem run_factory_callService (fuel : Nat) (dic : container) (depth : Nat)
    (n : String) (k : Except String Value → Service) (o1 o2 : Outcome)
    (hserv : run fuel dic depth (.service n) = some o1)
    (hcont : run fuel o1.st depth (.factory (k o1.res)) = some o2) :
    run (fuel + 1) dic depth (.factory (.callService n k)) =
      some ⟨o2.st, o1.log ++ o2.log, o2.res⟩ := by
  simp [run, hserv, hcont]

/-- Step: an uncached, registered name whose active-invocation count exceeds
the number of registered definitions fails the loop-detection test. -/
theorem run_service_cycle (fuel : Nat) (dic : container) (depth : Nat)
    (name : String) (fn : Service)
    (hc : alGet dic.services name = none)
    (hd : alGet dic.serviceDefs name = some fn)
    (hlen : depth + 1 > dic.serviceDefs.length) :
    run (fuel + 1) dic depth (.service name) =
      some ⟨dic, [Event.cycle name], .error "circular dependency detected"⟩ := by
  simp [run, hc, hd, hlen]

/-- Step: an uncached, registered name below the loop-detection threshold
invokes its factory; when the factory fails, the error comes back wrapped
with the service name and nothing is cached. -/
theorem run_service_invoke_error (fuel : Nat) (dic : container) (depth : Nat)
    (name : String) (fn : Service) (o : Outcome) (e : String)
    (hc : alGet dic.services name = none)
    (hd : alGet dic.serviceDefs name = some fn)
    (hlen : ¬ depth + 1 > dic.serviceDefs.length)
    (hbody : run fuel dic (depth + 1) (.factory fn) = some o)
    (hres : o.res = .error e) :
    run (fuel + 1) dic depth (.service name) =
      some ⟨o.st, Event.invoke name :: o.log,
        .error ("failed instantiating service " ++ name ++ ": " ++ e)⟩ := by
  simp [run, hc, hd, hlen, hbody, hres]

/-- Step: an uncached, registered name below the loop-detection threshold
invokes its factory; when the factory succeeds, the value is cached and
returned. -/
theorem run_service_invoke_ok (fuel : Nat) (dic : container) (depth : Nat)
    (name : String) (fn : Service) (o : Outcome) (v : Value)
    (hc : alGet dic.services name = none)
    (hd : alGet dic.serviceDefs name = some fn)
    (hlen : ¬ depth + 1 > dic.serviceDefs.length)
    (hbody : run fuel dic (depth + 1) (.factory fn) = some o)
    (hres : o.res = .ok v) :
    run (fuel + 1) dic depth (.service name) =
      some ⟨{ o.st with services := alPut o.st.services name v },
        Event.invoke name :: (o.log ++ [Event.write name v]), .ok v⟩ := by
  simp [run, hc, hd, hlen, hbody, hres]

/-- Factory shape of the repository's `TestContainer_Service_CircularDeps`
test: resolve `dep`; on failure, fail with the wrap text `pre` prepended to
the dependency's error; on success, continue with `onOk`. -/
def wrapDep (dep pre : String) (onOk : Value → Service) : Service :=
  .callService dep fun r =>
    match r with
    | .error e => .fail (pre ++ e)
    | .ok v => onOk v

/-- A container holding exactly three services in a dependency cycle:
`a` resolves `c`, `c` resolves `b`, `b` resolves `a` (the shape of
`TestContainer_Service_CircularDeps`), with an empty cache and arbitrary
parameters, frozen flag, wrap texts and success continuations. -/
def cyc3 (a b c pa pb pc : String) (ka kb kc : Value → Service)
    (fz : Bool) (params : List (String × Value)) : container :=
  ⟨fz, params,
   [(a, wrapDep c pa ka), (b, wrapDep a pb kb), (c, wrapDep b pc kc)], []⟩

/-- Resolving `a` on the three-cycle: the loop-detection threshold fires at
the fourth nested active `Service` call and the wrapped error surfaces. -/
theorem cyc3_resolve_a (a b c pa pb pc : String) (ka kb kc : Value → Service)
    (fz : Bool) (params : List (String × Value)) (fuel : Nat)
    (hab : a ≠ b) (hac : a ≠ c) (hbc : b ≠ c) :
    (cyc3 a b c pa pb pc ka kb kc fz params).Service (fuel + 7) 0 a =
      some ⟨cyc3 a b c pa pb pc ka kb kc fz params,
        [Event.invoke a, Event.invoke c, Event.invoke b, Event.cycle a],
        .error ("failed instantiating service " ++ a ++ ": " ++ (pa ++
          ("failed instantiating service " ++ c ++ ": " ++ (pc ++
            ("failed instantiating service " ++ b ++ ": " ++ (pb ++
              "circular dependency detected"))))))⟩ := by
  set D := cyc3 a b c pa pb pc ka kb kc fz params with hD
  have hga : alGet D.serviceDefs a = some (wrapDep c pa ka) := by
    rw [hD]; simp [cyc3, alGet]
  have hgb : alGet D.serviceDefs b = some (wrapDep a pb kb) := by
    rw [hD]; simp [cyc3, alGet, hab]
  have hgc : alGet D.serviceDefs c = some (wrapDep b pc kc) := by
    rw [hD]; simp [cyc3, alGet, hac, hbc]
  have hsc : ∀ x, alGet D.services x = none := fun x => rfl
  have hlen : D.serviceDefs.length = 3 := rfl
  have hn0 : ¬ 0 + 1 > D.serviceDefs.length := by rw [hlen]; omega
  have hn1 : ¬ 1 + 1 > D.serviceDefs.length := by rw [hlen]; omega
  have hn2 : ¬ 2 + 1 > D.serviceDefs.length := by rw [hlen]; omega
  have hy3 : 3 + 1 > D.serviceDefs.length := by rw [hlen]; omega
  have Sa3 : run (fuel + 1) D 3 (.service a) =
      some ⟨D, [Event.cycle a], .error "circular dependency detected"⟩ :=
    run_service_cycle fuel D 3 a _ (hsc a) hga hy3
  have Cb : run (fuel + 1) D 3
      (.factory (.fail (pb ++ "circular dependency detected"))) =
      some ⟨D, [], .error (pb ++ "circular dependency detected")⟩ :=
    run_factory_fail fuel D 3 _
  have Fb : run (fuel + 2) D 3 (.factory (wrapDep a pb kb)) =
      some ⟨D, [Event.cycle a] ++ [], .error (pb ++ "circular dependency detected")⟩ :=
    run_factory_callService (fuel + 1) D 3 a _
      ⟨D, [Event.cycle a], .error "circular dependency detected"⟩
      ⟨D, [], .error (pb ++ "circular dependency detected")⟩ Sa3 Cb
  have Sb : run (fuel + 3) D 2 (.service b) =
      some ⟨D, Event.invoke b :: ([Event.cycle a] ++ []),
        .error ("failed instantiating service " ++ b ++ ": " ++
          (pb ++ "circular dependency detected"))⟩ :=
    run_service_invoke_error (fuel + 2) D 2 b _ _ _ (hsc b) hgb hn2 Fb rfl
  have Cc : run (fuel + 3) D 2
      (.factory (.fail (pc ++ ("failed instantiating service " ++ b ++ ": " ++
        (pb ++ "circular dependency detected"))))) =
      some ⟨D, [], .error (pc ++ ("failed instantiating service " ++ b ++ ": " ++
        (pb ++ "circular dependency detected")))⟩ :=
    run_factory_fail (fuel + 2) D 2 _
  have Fc : run (fuel + 4) D 2 (.factory (wrapDep b pc kc)) =
      some ⟨D, (Event.invoke b :: ([Event.cycle a] ++ [])) ++ [],
        .error (pc ++ ("failed instantiating service " ++ b ++ ": " ++
          (pb ++ "circular dependency detected")))⟩ :=
    run_factory_callService (fuel + 3) D 2 b _
      ⟨D, Event.invoke b :: ([Event.cycle a] ++ []),
        .error ("failed instantiating service " ++ b ++ ": " ++
          (pb ++ "circular dependency detected"))⟩
      ⟨D, [], .error (pc ++ ("failed instantiating service " ++ b ++ ": " ++
        (pb ++ "circular dependency detected")))⟩ Sb Cc
  have Sc : run (fuel + 5) D 1 (.service c) =
      some ⟨D, Event.invoke c :: ((Event.invoke b :: ([Event.cycle a] ++ [])) ++ []),
        .error ("failed instantiating service " ++ c ++ ": " ++
          (pc ++ ("failed instantiating service " ++ b ++ ": " ++
            (pb ++ "circular dependency detected"))))⟩ :=
    run_service_invoke_error (fuel + 4) D 1 c _ _ _ (hsc c) hgc hn1 Fc rfl
  have Ca : run (fuel + 5) D 1
      (.factory (.fail (pa ++ ("failed instantiating service " ++ c ++ ": " ++
        (pc ++ ("failed instantiating service " ++ b ++ ": " ++
          (pb ++ "circular dependency detected"))))))) =
      some ⟨D, [], .error (pa ++ ("failed instantiating service " ++ c ++ ": " ++
        (pc ++ ("failed instantiating service " ++ b ++ ": " ++
          (pb ++ "circular dependency detected")))))⟩ :=
    run_factory_fail (fuel + 4) D 1 _
  have Fa : run (fuel + 6) D 1 (.factory (wrapDep c pa ka)) =
      some ⟨D, (Event.invoke c :: ((Event.invoke b :: ([Event.cycle a] ++ [])) ++ [])) ++ [],
        .error (pa ++ ("failed instantiating service " ++ c ++ ": " ++
          (pc ++ ("failed instantiating service " ++ b ++ ": " ++
            (pb ++ "circular dependency detected")))))⟩ :=
    run_factory_callService (fuel + 5) D 1 c _
      ⟨D, Event.invoke c :: ((Event.invoke b :: ([Event.cycle a] ++ [])) ++ []),
        .error ("failed instantiating service " ++ c ++ ": " ++
          (pc ++ ("failed instantiating service " ++ b ++ ": " ++
            (pb ++ "circular dependency detected"))))⟩
      ⟨D, [], .error (pa ++ ("failed instantiating service " ++ c ++ ": " ++
        (pc ++ ("failed instantiating service " ++ b ++ ": " ++
          (pb ++ "circular dependency detected")))))⟩ Sc Ca
  have Sa : run (fuel + 7) D 0 (.service a) =
      some ⟨D, Event.invoke a ::
          ((Event.invoke c :: ((Event.invoke b :: ([Event.cycle a] ++ [])) ++ [])) ++ []),
        .error ("failed instantiating service " ++ a ++ ": " ++
          (pa ++ ("failed instantiating service " ++ c ++ ": " ++
            (pc ++ ("failed instantiating service " ++ b ++ ": " ++
              (pb ++ "circular dependency detected"))))))⟩ :=
    run_service_invoke_error (fuel + 6) D 0 a _ _ _ (hsc a) hga hn0 Fa rfl
  exact Sa

/-- Resolving `b` on the three-cycle: same threshold firing, entered at
`b`. -/
theorem cyc3_resolve_b (a b c pa pb pc : String) (ka kb kc : Value → Service)
    (fz : Bool) (params : List (String × Value)) (fuel : Nat)
    (hab : a ≠ b) (hac : a ≠ c) (hbc : b ≠ c) :
    (cyc3 a b c pa pb pc ka kb kc fz params).Service (fuel + 7) 0 b =
      some ⟨cyc3 a b c pa pb pc ka kb kc fz params,
        [Event.invoke b, Event.invoke a, Event.invoke c, Event.cycle b],
        .error ("failed instantiating service " ++ b ++ ": " ++ (pb ++ ("failed instantiating service " ++ a ++ ": " ++ (pa ++ ("failed instantiating service " ++ c ++ ": " ++ (pc ++ "circular dependency detected"))))))⟩ := by
  set D := cyc3 a b c pa pb pc ka kb kc fz params with hD
  have hga : alGet D.serviceDefs a = some (wrapDep c pa ka) := by
    rw [hD]; simp [cyc3, alGet]
  have hgb : alGet D.serviceDefs b = some (wrapDep a pb kb) := by
    rw [hD]; simp [cyc3, alGet, hab]
  have hgc : alGet D.serviceDefs c = some (wrapDep b pc kc) := by
    rw [hD]; simp [cyc3, alGet, hac, hbc]
  have hsc : ∀ x, alGet D.services x = none := fun x => rfl
  have hlen : D.serviceDefs.length = 3 := rfl
  have hn0 : ¬ 0 + 1 > D.serviceDefs.length := by rw [hlen]; omega
  have hn1 : ¬ 1 + 1 > D.serviceDefs.length := by rw [hlen]; omega
  have hn2 : ¬ 2 + 1 > D.serviceDefs.length := by rw [hlen]; omega
  have hy3 : 3 + 1 > D.serviceDefs.length := by rw [hlen]; omega
  have S3 : run (fuel + 1) D 3 (.service b) =
      some ⟨D, [Event.cycle b], .error "circular dependency detected"⟩ :=
    run_service_cycle fuel D 3 b _ (hsc b) hgb hy3
  have C1 : run (fuel + 1) D 3 (.factory (.fail (pc ++ "circular dependency detected"))) =
      some ⟨D, [], .error (pc ++ "circular dependency detected")⟩ :=
    run_factory_fail fuel D 3 _
  have F1 : run (fuel + 2) D 3 (.factory (wrapDep b pc kc)) =
      some ⟨D, [Event.cycle b] ++ [], .error (pc ++ "circular dependency detected")⟩ :=
    run_factory_callService (fuel + 1) D 3 b _
      ⟨D, [Event.cycle b], .error "circular dependency detected"⟩
      ⟨D, [], .error (pc ++ "circular dependency detected")⟩ S3 C1
  have S2 : run (fuel + 3) D 2 (.service c) =
      some ⟨D, Event.invoke c :: ([Event.cycle b] ++ []), .error ("failed instantiating service " ++ c ++ ": " ++ (pc ++ "circular dependency detected"))⟩ :=
    run_service_invoke_error (fuel + 2) D 2 c _ _ _ (hsc c) hgc hn2 F1 rfl
  have C2 : run (fuel + 3) D 2 (.factory (.fail (pa ++ ("failed instantiating service " ++ c ++ ": " ++ (pc ++ "circular dependency detected"))))) =
      some ⟨D, [], .error (pa ++ ("failed instantiating service " ++ c ++ ": " ++ (pc ++ "circular dependency detected")))⟩ :=
    run_factory_fail (fuel + 2) D 2 _
  have F2 : run (fuel + 4) D 2 (.factory (wrapDep c pa ka)) =
      some ⟨D, (Event.invoke c :: ([Event.cycle b] ++ [])) ++ [], .error (pa ++ ("failed instantiating service " ++ c ++ ": " ++ (pc ++ "circular dependency detected")))⟩ :=
    run_factory_callService (fuel + 3) D 2 c _
      ⟨D, Event.invoke c :: ([Event.cycle b] ++ []), .error ("failed instantiating service " ++ c ++ ": " ++ (pc ++ "circular dependency detected"))⟩
      ⟨D, [], .error (pa ++ ("failed instantiating service " ++ c ++ ": " ++ (pc ++ "circular dependency detected")))⟩ S2 C2
  have S1 : run (fuel + 5) D 1 (.service a) =
      some ⟨D, Event.invoke a :: ((Event.invoke c :: ([Event.cycle b] ++ [])) ++ []), .error ("failed instantiating service " ++ a ++ ": " ++ (pa ++ ("failed instantiating service " ++ c ++ ": " ++ (pc ++ "circular dependency detected"))))⟩ :=
    run_service_invoke_error (fuel + 4) D 1 a _ _ _ (hsc a) hga hn1 F2 rfl
  have C3 : run (fuel + 5) D 1 (.factory (.fail (pb ++ ("failed instantiating service " ++ a ++ ": " ++ (pa ++ ("failed instantiating service " ++ c ++ ": " ++ (pc ++ "circular dependency detected"))))))) =
      some ⟨D, [], .error (pb ++ ("failed instantiating service " ++ a ++ ": " ++ (pa ++ ("failed instantiating service " ++ c ++ ": " ++ (pc ++ "circular dependency detected")))))⟩ :=
    run_factory_fail (fuel + 4) D 1 _
  have F3 : run (fuel + 6) D 1 (.factory (wrapDep a pb kb)) =
      some ⟨D, (Event.invoke a :: ((Event.invoke c :: ([Event.cycle b] ++ [])) ++ [])) ++ [], .error (pb ++ ("failed instantiating service " ++ a ++ ": " ++ (pa ++ ("failed instantiating service " ++ c ++ ": " ++ (pc ++ "circular dependency detected")))))⟩ :=
    run_factory_callService (fuel + 5) D 1 a _
      ⟨D, Event.invoke a :: ((Event.invoke c :: ([Event.cycle b] ++ [])) ++ []), .error ("failed instantiating service " ++ a ++ ": " ++ (pa ++ ("failed instantiating service " ++ c ++ ": " ++ (pc ++ "circular dependency detected"))))⟩
      ⟨D, [], .error (pb ++ ("failed instantiating service " ++ a ++ ": " ++ (pa ++ ("failed instantiating service " ++ c ++ ": " ++ (pc ++ "circular dependency detected")))))⟩ S1 C3
  have S0 : run (fuel + 7) D 0 (.service b) =
      some ⟨D, Event.invoke b :: ((Event.invoke a :: ((Event.invoke c :: ([Event.cycle b] ++ [])) ++ [])) ++ []), .error ("failed instantiating service " ++ b ++ ": " ++ (pb ++ ("failed instantiating service " ++ a ++ ": " ++ (pa ++ ("failed instantiating service " ++ c ++ ": " ++ (pc ++ "circular dependency detected"))))))⟩ :=
    run_service_invoke_error (fuel + 6) D 0 b _ _ _ (hsc b) hgb hn0 F3 rfl
  exact S0

/-- Resolving `c` on the three-cycle: same threshold firing, entered at
`c`. -/
theorem cyc3_resolve_c (a b c pa pb pc : String) (ka kb kc : Value → Service)
    (fz : Bool) (params : List (String × Value)) (fuel : Nat)
    (hab : a ≠ b) (hac : a ≠ c) (hbc : b ≠ c) :
    (cyc3 a b c pa pb pc ka kb kc fz params).Service (fuel + 7) 0 c =
      some ⟨cyc3 a b c pa pb pc ka kb kc fz params,
        [Event.invoke c, Event.invoke b, Event.invoke a, Event.cycle c],
        .error ("failed instantiating service " ++ c ++ ": " ++ (pc ++ ("failed instantiating service " ++ b ++ ": " ++ (pb ++ ("failed instantiating service " ++ a ++ ": " ++ (pa ++ "circular dependency detected"))))))⟩ := by
  set D := cyc3 a b c pa pb pc ka kb kc fz params with hD
  have hga : alGet D.serviceDefs a = some (wrapDep c pa ka) := by
    rw [hD]; simp [cyc3, alGet]
  have hgb : alGet D.serviceDefs b = some (wrapDep a pb kb) := by
    rw [hD]; simp [cyc3, alGet, hab]
  have hgc : alGet D.serviceDefs c = some (wrapDep b pc kc) := by
    rw [hD]; simp [cyc3, alGet, hac, hbc]
  have hsc : ∀ x, alGet D.services x = none := fun x => rfl
  have hlen : D.serviceDefs.length = 3 := rfl
  have hn0 : ¬ 0 + 1 > D.serviceDefs.length := by rw [hlen]; omega
  have hn1 : ¬ 1 + 1 > D.serviceDefs.length := by rw [hlen]; omega
  have hn2 : ¬ 2 + 1 > D.serviceDefs.length := by rw [hlen]; omega
  have hy3 : 3 + 1 > D.serviceDefs.length := by rw [hlen]; omega
  have S3 : run (fuel + 1) D 3 (.service c) =
      some ⟨D, [Event.cycle c], .error "circular dependency detected"⟩ :=
    run_service_cycle fuel D 3 c _ (hsc c) hgc hy3
  have C1 : run (fuel + 1) D 3 (.factory (.fail (pa ++ "circular dependency detected"))) =
      some ⟨D, [], .error (pa ++ "circular dependency detected")⟩ :=
    run_factory_fail fuel D 3 _
  have F1 : run (fuel + 2) D 3 (.factory (wrapDep c pa ka)) =
      some ⟨D, [Event.cycle c] ++ [], .error (pa ++ "circular dependency detected")⟩ :=
    run_factory_callService (fuel + 1) D 3 c _
      ⟨D, [Event.cycle c], .error "circular dependency detected"⟩
      ⟨D, [], .error (pa ++ "circular dependency detected")⟩ S3 C1
  have S2 : run (fuel + 3) D 2 (.service a) =
      some ⟨D, Event.invoke a :: ([Event.cycle c] ++ []), .error ("failed instantiating service " ++ a ++ ": " ++ (pa ++ "circular dependency detected"))⟩ :=
    run_service_invoke_error (fuel + 2) D 2 a _ _ _ (hsc a) hga hn2 F1 rfl
  have C2 : run (fuel + 3) D 2 (.factory (.fail (pb ++ ("failed instantiating service " ++ a ++ ": " ++ (pa ++ "circular dependency detected"))))) =
      some ⟨D, [], .error (pb ++ ("failed instantiating service " ++ a ++ ": " ++ (pa ++ "circular dependency detected")))⟩ :=
    run_factory_fail (fuel + 2) D 2 _
  have F2 : run (fuel + 4) D 2 (.factory (wrapDep a pb kb)) =
      some ⟨D, (Event.invoke a :: ([Event.cycle c] ++ [])) ++ [], .error (pb ++ ("failed instantiating service " ++ a ++ ": " ++ (pa ++ "circular dependency detected")))⟩ :=
    run_factory_callService (fuel + 3) D 2 a _
      ⟨D, Event.invoke a :: ([Event.cycle c] ++ []), .error ("failed instantiating service " ++ a ++ ": " ++ (pa ++ "circular dependency detected"))⟩
      ⟨D, [], .error (pb ++ ("failed instantiating service " ++ a ++ ": " ++ (pa ++ "circular dependency detected")))⟩ S2 C2
  have S1 : run (fuel + 5) D 1 (.service b) =
      some ⟨D, Event.invoke b :: ((Event.invoke a :: ([Event.cycle c] ++ [])) ++ []), .error ("failed instantiating service " ++ b ++ ": " ++ (pb ++ ("failed instantiating service " ++ a ++ ": " ++ (pa ++ "circular dependency detected"))))⟩ :=
    run_service_invoke_error (fuel + 4) D 1 b _ _ _ (hsc b) hgb hn1 F2 rfl
  have C3 : run (fuel + 5) D 1 (.factory (.fail (pc ++ ("failed instantiating service " ++ b ++ ": " ++ (pb ++ ("failed instantiating service " ++ a ++ ": " ++ (pa ++ "circular dependency detected"))))))) =
      some ⟨D, [], .error (pc ++ ("failed instantiating service " ++ b ++ ": " ++ (pb ++ ("failed instantiating service " ++ a ++ ": " ++ (pa ++ "circular dependency detected")))))⟩ :=
    run_factory_fail (fuel + 4) D 1 _
  have F3 : run (fuel + 6) D 1 (.factory (wrapDep b pc kc)) =
      some ⟨D, (Event.invoke b :: ((Event.invoke a :: ([Event.cycle c] ++ [])) ++ [])) ++ [], .error (pc ++ ("failed instantiating service " ++ b ++ ": " ++ (pb ++ ("failed instantiating service " ++ a ++ ": " ++ (pa ++ "circular dependency detected")))))⟩ :=
    run_factory_callService (fuel + 5) D 1 b _
      ⟨D, Event.invoke b :: ((Event.invoke a :: ([Event.cycle c] ++ [])) ++ []), .error ("failed instantiating service " ++ b ++ ": " ++ (pb ++ ("failed instantiating service " ++ a ++ ": " ++ (pa ++ "circular dependency detected"))))⟩
      ⟨D, [], .error (pc ++ ("failed instantiating service " ++ b ++ ": " ++ (pb ++ ("failed instantiating service " ++ a ++ ": " ++ (pa ++ "circular dependency detected")))))⟩ S1 C3
  have S0 : run (fuel + 7) D 0 (.service c) =
      some ⟨D, Event.invoke c :: ((Event.invoke b :: ((Event.invoke a :: ([Event.cycle c] ++ [])) ++ [])) ++ []), .error ("failed instantiating service " ++ c ++ ": " ++ (pc ++ ("failed instantiating service " ++ b ++ ": " ++ (pb ++ ("failed instantiating service " ++ a ++ ": " ++ (pa ++ "circular dependency detected"))))))⟩ :=
    run_service_invoke_error (fuel + 6) D 0 c _ _ _ (hsc c) hgc hn0 F3 rfl
  exact S0

/-! Machinery for the acyclic-dependency claim: a syntactic bound on the
services a factory body may request, and rank functions witnessing
acyclicity of the registered dependency graph. -/

/-- Over-approximation of the `Service` callbacks a factory body can make:
`OnlyCalls D p` holds when every service name `p` can ever request satisfies
`D`. -/
inductive OnlyCalls (D : String → Prop) : Service → Prop where
  | ret (v : Value) : OnlyCalls D (.ret v)
  | fail (m : String) : OnlyCalls D (.fail m)
  | callParam (n : String) (k : Except String Value → Service) :
      (∀ r, OnlyCalls D (k r)) → OnlyCalls D (.callParam n k)
  | callService (n : String) (k : Except String Value → Service) :
      D n → (∀ r, OnlyCalls D (k r)) → OnlyCalls D (.callService n k)

/-- Acyclicity of the registered dependency graph, witnessed by a rank
function: every registered factory only requests registered services of
strictly smaller rank (requests for unregistered names are unconstrained —
they fail with `service not found` and recurse no further). -/
def Ranked (SD : List (String × Service)) (rk : String → Nat) : Prop :=
  ∀ n fn, alGet SD n = some fn →
    OnlyCalls (fun m => (alGet SD m).isSome = true → rk m < rk n) fn

/-- The in-progress resolutions on the call path, innermost first: all
registered, with ranks strictly increasing outward. -/
def goodChain (SD : List (String × Service)) (rk : String → Nat)
    (L : List String) : Prop :=
  List.Chain' (fun x y => rk x < rk y) L ∧ ∀ x ∈ L, (alGet SD x).isSome = true

/-- A chain of in-progress resolutions has no more elements than there are
registered definitions: its names are distinct (ranks strictly increase) and
all registered. -/
theorem goodChain_length_le (SD : List (String × Service)) (rk : String → Nat)
    (L : List String) (h : goodChain SD rk L) : L.length ≤ SD.length := by
  obtain ⟨hchain, hmem⟩ := h
  have htrans : IsTrans String (fun x y => rk x < rk y) :=
    ⟨fun _ _ _ hxy hyz => Nat.lt_trans hxy hyz⟩
  have hpair : L.Pairwise (fun x y => rk x < rk y) := by
    rw [← List.chain'_iff_pairwise]
    exact hchain
  have hnodup : L.Nodup := by
    refine hpair.imp ?_
    intro x y hxy heq
    subst heq
    exact Nat.lt_irrefl _ hxy
  have hsub : L ⊆ keys SD := fun x hx => mem_keys_of_alGet _ _ (hmem x hx)
  have hlen := (List.subperm_of_subset hnodup hsub).length_le
  calc L.length ≤ (keys SD).length := hlen
    _ = SD.length := List.length_map _ _

/-- Main invariant for the acyclic case, by induction on fuel: with a rank
function witnessing acyclicity, no resolution step ever takes the
circular-dependency branch, and `serviceDefs` stays fixed.  The first
conjunct handles factory bodies (running inside the innermost in-progress
resolution `n`), the second `Service` calls. -/
theorem run_cycleFree_aux (SD : List (String × Service)) (rk : String → Nat)
    (hR : Ranked SD rk) (fuel : Nat) :
    (∀ (dic : container) (depth : Nat) (p : Service) (n : String)
        (L : List String) (o : Outcome),
      dic.serviceDefs = SD →
      goodChain SD rk (n :: L) →
      (n :: L).length = depth →
      OnlyCalls (fun m => (alGet SD m).isSome = true → rk m < rk n) p →
      run fuel dic depth (.factory p) = some o →
      cycleFree o.log = true ∧ o.st.serviceDefs = SD) ∧
    (∀ (dic : container) (depth : Nat) (name : String)
        (L : List String) (o : Outcome),
      dic.serviceDefs = SD →
      goodChain SD rk L →
      L.length = depth →
      ((alGet SD name).isSome = true → goodChain SD rk (name :: L)) →
      run fuel dic depth (.service name) = some o →
      cycleFree o.log = true ∧ o.st.serviceDefs = SD) := by
  induction fuel with
  | zero =>
    constructor
    · intro dic depth p n L o _ _ _ _ h
      simp [run] at h
    · intro dic depth name L o _ _ _ _ h
      simp [run] at h
  | succ fuel ih =>
    obtain ⟨ihF, ihS⟩ := ih
    constructor
    · intro dic depth p n L o hdefs hchain hlen honly h
      cases p with
      | ret v =>
        simp only [run, Option.some.injEq] at h
        subst h
        exact ⟨rfl, hdefs⟩
      | fail m =>
        simp only [run, Option.some.injEq] at h
        subst h
        exact ⟨rfl, hdefs⟩
      | callParam pn k =>
        simp only [run] at h
        cases honly with
        | callParam _ _ hk =>
          exact ihF _ _ _ _ _ _ hdefs hchain hlen (hk _) h
      | callService m k =>
        cases honly with
        | callService _ _ hD hk =>
          simp only [run] at h
          split at h
          · exact absurd h (by simp)
          next o1 h1 =>
            split at h
            · exact absurd h (by simp)
            next o2 h2 =>
              injection h with h
              subst h
              have hm : (alGet SD m).isSome = true → goodChain SD rk (m :: n :: L) := by
                intro hreg
                refine ⟨?_, ?_⟩
                · rw [List.chain'_cons]
                  exact ⟨hD hreg, hchain.1⟩
                · intro x hx
                  rcases List.mem_cons.1 hx with hx | hx
                  · subst hx
                    exact hreg
                  · exact hchain.2 x hx
              obtain ⟨cf1, defs1⟩ := ihS dic depth m (n :: L) o1 hdefs hchain hlen hm h1
              obtain ⟨cf2, defs2⟩ :=
                ihF o1.st depth (k o1.res) n L o2 defs1 hchain hlen (hk _) h2
              refine ⟨?_, defs2⟩
              simp only [cycleFree, List.all_append] at cf1 cf2 ⊢
              rw [cf1, cf2]
              rfl
    · intro dic depth name L o hdefs hchain hlen hname h
      simp only [run] at h
      split at h
      next inst hcache =>
        injection h with h
        subst h
        exact ⟨rfl, hdefs⟩
      next hcache =>
        split at h
        next hd =>
          injection h with h
          subst h
          exact ⟨rfl, hdefs⟩
        next fn hd =>
          rw [hdefs] at hd
          have hreg : (alGet SD name).isSome = true := by rw [hd]; rfl
          have hchain2 : goodChain SD rk (name :: L) := hname hreg
          have hle : (name :: L).length ≤ SD.length :=
            goodChain_length_le SD rk _ hchain2
          split at h
          next hgt =>
            exfalso
            rw [hdefs] at hgt
            simp only [List.length_cons, hlen] at hle
            omega
          next hgt =>
            split at h
            · exact absurd h (by simp)
            next o1 hr =>
              obtain ⟨cf1, defs1⟩ :=
                ihF dic (depth + 1) fn name L o1 hdefs hchain2
                  (by simp [hlen]) (hR name fn hd) hr
              split at h
              next e hres =>
                injection h with h
                subst h
                refine ⟨?_, defs1⟩
                simp only [cycleFree, List.all_cons] at cf1 ⊢
                rw [cf1]
                rfl
              next v hres =>
                injection h with h
                subst h
                refine ⟨?_, defs1⟩
                simp only [cycleFree, List.all_cons, List.all_append] at cf1 ⊢
                rw [cf1]
                rfl

/-! Claim theorems. -/

/-- C9: when the registered dependency graph is acyclic — witnessed by a
rank function under which every registered factory requests only registered
services of smaller rank — no top-level `Service` call ever takes the
circular-dependency branch: the `cycle` event never appears in the run's
log, whatever the requested name, the starting cache, and the fuel.  In
particular a linear chain through all `N` registered services resolves
without the loop-detection test ever firing. -/
theorem claim_C9 (dic : container) (rk : String → Nat)
    (hR : Ranked dic.serviceDefs rk) (fuel : Nat) (name : String) (o : Outcome)
    (h : dic.Service fuel 0 name = some o) :
    cycleFree o.log = true := by
  refine ((run_cycleFree_aux dic.serviceDefs rk hR fuel).2 dic 0 name [] o rfl
    ⟨List.chain'_nil, fun x hx => absurd hx (List.not_mem_nil x)⟩ rfl ?_ h).1
  intro hreg
  refine ⟨List.chain'_singleton _, ?_⟩
  intro x hx
  rw [List.mem_singleton] at hx
  subst hx
  exact hreg

/-- Witness for C9 on the acyclic `testDic` (service `s2` depends only on
`s1`): resolving `s2` fires no circular-dependency branch. -/
theorem claim_C9_witness : cycleFree (logOf testRun1) = true := by
  have hR : Ranked testDic.serviceDefs (fun n => if n = "s2" then 1 else 0) := by
    intro n fn hn
    by_cases h1 : "s1" = n
    · subst h1
      simp [testDic, alGet] at hn
      subst hn
      exact .ret _
    · by_cases h2 : "s2" = n
      · subst h2
        simp [testDic, alGet, h1] at hn
        subst hn
        refine .callService _ _ ?_ ?_
        · intro _
          decide
        · intro r
          cases r with
          | error e => exact .fail _
          | ok v =>
            cases v with
            | vstr s => exact .ret _
            | vnil => exact .fail _
            | vint i => exact .fail _
      · simp [testDic, alGet, h1, h2] at hn
  cases hrun : testDic.Service 30 0 "s2" with
  | none =>
    rw [logOf, testRun1, hrun]
    rfl
  | some o =>
    have hcf := claim_C9 testDic _ hR 30 "s2" o hrun
    rw [logOf, testRun1, hrun]
    simpa using hcf

/-- C2: on any container whose three services form the dependency cycle
`a` needs `c`, `c` needs `b`, `b` needs `a` (factories of the repository's
test shape, with arbitrary wrap texts and success continuations, the success
continuations being unreachable), calling `Service` on any one of the three
returns an error — never a value — whose message ends in
`circular dependency detected`: the interpreter counts active nested
`Service` invocations and fails once that count exceeds the number of
registered definitions. -/
theorem claim_C2 (a b c pa pb pc : String) (ka kb kc : Value → Service)
    (fz : Bool) (params : List (String × Value)) (fuel : Nat)
    (hab : a ≠ b) (hac : a ≠ c) (hbc : b ≠ c) :
    (∃ q, resultOf ((cyc3 a b c pa pb pc ka kb kc fz params).Service (fuel + 7) 0 a) =
      some (.error (q ++ "circular dependency detected"))) ∧
    (∃ q, resultOf ((cyc3 a b c pa pb pc ka kb kc fz params).Service (fuel + 7) 0 b) =
      some (.error (q ++ "circular dependency detected"))) ∧
    (∃ q, resultOf ((cyc3 a b c pa pb pc ka kb kc fz params).Service (fuel + 7) 0 c) =
      some (.error (q ++ "circular dependency detected"))) := by
  refine ⟨⟨"failed instantiating service " ++ a ++ ": " ++ (pa ++
      ("failed instantiating service " ++ c ++ ": " ++ (pc ++
        ("failed instantiating service " ++ b ++ ": " ++ pb)))), ?_⟩,
    ⟨"failed instantiating service " ++ b ++ ": " ++ (pb ++
      ("failed instantiating service " ++ a ++ ": " ++ (pa ++
        ("failed instantiating service " ++ c ++ ": " ++ pc)))), ?_⟩,
    ⟨"failed instantiating service " ++ c ++ ": " ++ (pc ++
      ("failed instantiating service " ++ b ++ ": " ++ (pb ++
        ("failed instantiating service " ++ a ++ ": " ++ pa)))), ?_⟩⟩
  · rw [resultOf, cyc3_resolve_a a b c pa pb pc ka kb kc fz params fuel hab hac hbc]
    simp [String.append_assoc]
  · rw [resultOf, cyc3_resolve_b a b c pa pb pc ka kb kc fz params fuel hab hac hbc]
    simp [String.append_assoc]
  · rw [resultOf, cyc3_resolve_c a b c pa pb pc ka kb kc fz params fuel hab hac hbc]
    simp [String.append_assoc]

/-- Witness for C2 at the repository's `TestContainer_Service_CircularDeps`
instance: names `sA`, `sB`, `sC` with the test's wrap texts. -/
theorem claim_C2_witness :
    (∃ q, resultOf ((cyc3 "sA" "sB" "sC" "could not get service sC: "
        "could not get service sA: " "could not get service sB: "
        (fun _ => .ret .vnil) (fun _ => .ret .vnil) (fun _ => .ret .vnil)
        false []).Service (3 + 7) 0 "sA") =
      some (.error (q ++ "circular dependency detected"))) ∧
    (∃ q, resultOf ((cyc3 "sA" "sB" "sC" "could not get service sC: "
        "could not get service sA: " "could not get service sB: "
        (fun _ => .ret .vnil) (fun _ => .ret .vnil) (fun _ => .ret .vnil)
        false []).Service (3 + 7) 0 "sB") =
      some (.error (q ++ "circular dependency detected"))) ∧
    (∃ q, resultOf ((cyc3 "sA" "sB" "sC" "could not get service sC: "
        "could not get service sA: " "could not get service sB: "
        (fun _ => .ret .vnil) (fun _ => .ret .vnil) (fun _ => .ret .vnil)
        false []).Service (3 + 7) 0 "sC") =
      some (.error (q ++ "circular dependency detected"))) :=
  claim_C2 "sA" "sB" "sC" "could not get service sC: " "could not get service sA: "
    "could not get service sB: " (fun _ => .ret .vnil) (fun _ => .ret .vnil)
    (fun _ => .ret .vnil) false [] 3 (by decide) (by decide) (by decide)

/-- C4: calling `Store` or `Register` after `Freeze` panics with the fixed
message (`Cannot store parameters on frozen container`, resp.
`Cannot register services on frozen container`), producing no mutated state
(the panic precedes any write, so the tables are untouched); the same call
on an unfrozen container succeeds and performs exactly the insertion. -/
theorem claim_C4 (dic : container) (n : String) (v : Value) (fn : Service) :
    (dic.frozen = true →
      dic.Store n v = .error "Cannot store parameters on frozen container" ∧
      dic.Register n fn = .error "Cannot register services on frozen container") ∧
    (dic.frozen = false →
      ∃ d1, dic.Store n v = .ok d1 ∧ alGet d1.parameters n = some v ∧
        d1.serviceDefs = dic.serviceDefs ∧ d1.services = dic.services ∧
        ∃ d2, dic.Register n fn = .ok d2 ∧ alGet d2.serviceDefs n = some fn ∧
          d2.parameters = dic.parameters ∧ d2.services = dic.services) := by
  constructor
  · intro hf
    simp [container.Store, container.Register, hf]
  · intro hf
    refine ⟨{ dic with parameters := alPut dic.parameters n v }, ?_,
      alGet_put_self _ _ _, rfl, rfl,
      { dic with serviceDefs := alPut dic.serviceDefs n fn }, ?_,
      alGet_put_self _ _ _, rfl, rfl⟩
    · simp [container.Store, hf]
    · simp [container.Register, hf]

/-- Witness for C4 at concrete containers: a frozen empty container panics on
both mutators, an unfrozen one accepts the parameter and definition. -/
theorem claim_C4_witness :
    (New.Freeze.frozen = true →
      New.Freeze.Store "k" (.vstr "v") =
        .error "Cannot store parameters on frozen container" ∧
      New.Freeze.Register "k" s1fn =
        .error "Cannot register services on frozen container") ∧
    (New.frozen = false →
      ∃ d1, New.Store "k" (.vstr "v") = .ok d1 ∧
        alGet d1.parameters "k" = some (.vstr "v") ∧
        d1.serviceDefs = New.serviceDefs ∧ d1.services = New.services ∧
        ∃ d2, New.Register "k" s1fn = .ok d2 ∧ alGet d2.serviceDefs "k" = some s1fn ∧
          d2.parameters = New.parameters ∧ d2.services = New.services) :=
  ⟨(claim_C4 New.Freeze "k" (.vstr "v") s1fn).1, (claim_C4 New "k" (.vstr "v") s1fn).2⟩

/-- C5: for a name absent from `parameters`, `Param` returns the error
`parameter not found: "<name>"` without consulting the service tables (the
result does not depend on `serviceDefs` or `services`, so no factory can be
invoked), and `MustParam` panics with that same error. -/
theorem claim_C5 (dic : container) (name : String)
    (h : alGet dic.parameters name = none) :
    dic.Param name = .error ("parameter not found: \"" ++ name ++ "\"") ∧
    dic.MustParam name = .panicked ("parameter not found: \"" ++ name ++ "\"") ∧
    (∀ defs cache,
      container.Param { dic with serviceDefs := defs, services := cache } name =
        dic.Param name) := by
  refine ⟨?_, ?_, ?_⟩
  · simp [container.Param, h]
  · simp [container.MustParam, container.Param, h]
  · intro defs cache
    simp [container.Param]

/-- Witness for C5: the unset name `k2` on a container holding only `k`,
matching the repository's `TestContainer_MustParam`. -/
theorem claim_C5_witness :
    alGet (⟨false, [("k", Value.vstr "v")], [], []⟩ : container).parameters "k2" = none ∧
    (container.Param ⟨false, [("k", Value.vstr "v")], [], []⟩ "k2" =
        .error ("parameter not found: \"" ++ "k2" ++ "\"") ∧
      container.MustParam ⟨false, [("k", Value.vstr "v")], [], []⟩ "k2" =
        .panicked ("parameter not found: \"" ++ "k2" ++ "\"") ∧
      (∀ defs cache,
        container.Param ⟨false, [("k", Value.vstr "v")], defs, cache⟩ "k2" =
          container.Param ⟨false, [("k", Value.vstr "v")], [], []⟩ "k2")) :=
  ⟨by decide, claim_C5 ⟨false, [("k", Value.vstr "v")], [], []⟩ "k2" (by decide)⟩

/-- C6: on an unfrozen container, `Store(n, v1)` succeeds and `Param(n)` then
returns `v1`; a second `Store(n, v2)` at the same name succeeds and `Param(n)`
then returns `v2`: the later store overwrites the earlier value. -/
theorem claim_C6 (dic : container) (n : String) (v1 v2 : Value)
    (h : dic.frozen = false) :
    ∃ d1, dic.Store n v1 = .ok d1 ∧ d1.Param n = .ok v1 ∧
      ∃ d2, d1.Store n v2 = .ok d2 ∧ d2.Param n = .ok v2 := by
  refine ⟨{ dic with parameters := alPut dic.parameters n v1 }, ?_, ?_,
    { dic with parameters := alPut (alPut dic.parameters n v1) n v2 }, ?_, ?_⟩
  · simp [container.Store, h]
  · simp [container.Param, alGet_put_self]
  · simp [container.Store, h]
  · simp [container.Param, alGet_put_self]

/-- Witness for C6 on the empty container with the values of the repository's
`TestContainer_Param` overwrite case. -/
theorem claim_C6_witness :
    New.frozen = false ∧
    ∃ d1, New.Store "k" (.vstr "v") = .ok d1 ∧ d1.Param "k" = .ok (.vstr "v") ∧
      ∃ d2, d1.Store "k" (.vstr "w") = .ok d2 ∧ d2.Param "k" = .ok (.vstr "w") :=
  ⟨rfl, claim_C6 New "k" (.vstr "v") (.vstr "w") rfl⟩

/-- C7: `Names` returns a mapping with exactly the keys `params` and
`services`; the `params` entry is a lexicographically sorted permutation of
the parameter names, the `services` entry of the service-definition names;
and the result is unchanged under any contents of the memoization cache. -/
theorem claim_C7 (dic : container) :
    keys dic.Names = ["params", "services"] ∧
    (∃ ps sv, dic.Names = [("params", ps), ("services", sv)] ∧
      ps.Perm (keys dic.parameters) ∧ ps.Sorted (· ≤ ·) ∧
      sv.Perm (keys dic.serviceDefs) ∧ sv.Sorted (· ≤ ·)) ∧
    (∀ cache, container.Names { dic with services := cache } = dic.Names) := by
  refine ⟨rfl, ⟨_, _, rfl, ?_, ?_, ?_, ?_⟩, fun cache => rfl⟩
  · exact List.perm_insertionSort _ _
  · exact List.sorted_insertionSort _ _
  · exact List.perm_insertionSort _ _
  · exact List.sorted_insertionSort _ _

/-- C1 (amended): when a top-level `Service(name)` call succeeds with value
`v`, the cache afterwards holds `v` under `name`, and any later
`Service(name)` call returns exactly that cached value while invoking no
factory and changing no state (empty event log, same container).  The
original claim's stronger clause — that the factory runs exactly once within
the first call — fails when a factory swallows a circular-dependency error,
see the counterexample. -/
theorem claim_C1 (fuel : Nat) (dic : container) (name : String) (o : Outcome)
    (v : Value) (h : dic.Service fuel 0 name = some o) (hres : o.res = .ok v) :
    alGet o.st.services name = some v ∧
    ∀ g, o.st.Service (g + 1) 0 name = some ⟨o.st, [], .ok v⟩ := by
  have hc := Service_ok_cached fuel dic 0 name o v h hres
  exact ⟨hc, fun g => Service_fastPath o.st g 0 name v hc⟩

/-- Witness for C1 on the repository's `TestContainer_Service` scenario:
resolving `s2` twice yields `s1s2` both times and the second call logs no
events (hence invokes no factory). -/
theorem claim_C1_witness :
    resultOf testRun1 = some (.ok (.vstr "s1s2")) ∧
    resultOf testRun2 = some (.ok (.vstr "s1s2")) ∧
    logOf testRun2 = [] := by
  refine ⟨by decide, ?_⟩
  cases hrun : testDic.Service 30 0 "s2" with
  | none =>
    have hne : resultOf (testDic.Service 30 0 "s2") = some (.ok (.vstr "s1s2")) := by
      decide
    rw [resultOf, hrun] at hne
    simp at hne
  | some o =>
    have hres : o.res = .ok (.vstr "s1s2") := by
      have hr : resultOf (testDic.Service 30 0 "s2") = some (.ok (.vstr "s1s2")) := by
        decide
      rw [resultOf, hrun] at hr
      simpa using hr
    obtain ⟨h1, h2⟩ := claim_C1 30 testDic "s2" o (.vstr "s1s2") hrun hres
    have hrun2 : testRun2 = some ⟨o.st, [], .ok (.vstr "s1s2")⟩ := by
      rw [testRun2, testRun1, hrun]
      exact h2 29
    rw [hrun2]
    exact ⟨rfl, rfl⟩

/-- Counterexample to C1 as stated: on `pathoDic` both sequential top-level
`Service("a")` calls succeed with the identical value 2, yet the factory
registered under `a` is invoked twice across the two calls (both invocations
during the first call, whose inner re-entrant resolution of `a` succeeds
first), not exactly once. -/
theorem claim_C1_counterexample :
    resultOf pathoRun1 = some (.ok (.vint 2)) ∧
    resultOf pathoRun2 = some (.ok (.vint 2)) ∧
    invokeCount (logOf pathoRun1) "a" + invokeCount (logOf pathoRun2) "a" = 2 ∧
    ¬ invokeCount (logOf pathoRun1) "a" + invokeCount (logOf pathoRun2) "a" = 1 := by
  decide

/-- C3: a registered, uncached service whose factory fails with `e` on every
invocation resolves to the error `failed instantiating service <name>: <e>`,
nothing is stored in the cache under that name, and any subsequent
`Service(name)` call invokes the factory again. -/
theorem claim_C3 (dic : container) (name : String) (body : Service) (e : String)
    (hdef : alGet dic.serviceDefs name = some body)
    (hnone : alGet dic.services name = none)
    (herr : ∀ fuel s d o, run fuel s d (.factory body) = some o → o.res = .error e)
    (fuel : Nat) (o : Outcome)
    (h : dic.Service fuel 0 name = some o) :
    o.res = .error ("failed instantiating service " ++ name ++ ": " ++ e) ∧
    alGet o.st.services name = none ∧
    ∀ g o2, o.st.Service g 0 name = some o2 → Event.invoke name ∈ o2.log := by
  have hcacheAfter : alGet o.st.services name = none :=
    run_no_cache_of_failing name body e herr fuel dic 0 _ o hdef hnone h
  have hdefAfter : alGet o.st.serviceDefs name = some body := by
    rw [(run_preserves_tables fuel dic 0 _ o h).1]; exact hdef
  refine ⟨?_, hcacheAfter, fun g o2 h2 => Service_invokes o.st name body g o2 hcacheAfter hdefAfter h2⟩
  cases fuel with
  | zero => simp [container.Service, run] at h
  | succ fuel =>
    simp only [container.Service, run] at h
    split at h
    next inst hcache =>
      rw [hnone] at hcache
      simp at hcache
    next hcache =>
      split at h
      next hd2 =>
        rw [hdef] at hd2
        simp at hd2
      next fn2 hd2 =>
        have hfb : body = fn2 := by
          have := hdef.symm.trans hd2
          injection this
        subst hfb
        split at h
        next hgt =>
          have hpos := length_pos_of_alGet _ _ _ hdef
          omega
        next hgt =>
          split at h
          · exact absurd h (by simp)
          next o1 hr =>
            have ho1 := herr fuel dic (0 + 1) o1 hr
            split at h
            next e1 hres1 =>
              have he1 : e1 = e := by
                have h12 := hres1.symm.trans ho1
                injection h12
              subst he1
              injection h with h
              subst h
              rfl
            next v1 hres1 =>
              rw [hres1] at ho1
              simp at ho1

/-- Witness for C3 on the repository's `TestContainer_Service_Failing`
scenario: service `s` with an always-failing factory yields the wrapped
error and leaves `s` uncached. -/
theorem claim_C3_witness :
    resultOf (failDic.Service 10 0 "s") =
      some (.error "failed instantiating service s: failed") ∧
    (failDic.Service 10 0 "s").map (fun o => alGet o.st.services "s") = some none := by
  have herr : ∀ fuel s d o, run fuel s d (.factory (.fail "failed")) = some o →
      o.res = .error "failed" := by
    intro fuel s d o h
    cases fuel with
    | zero => simp [run] at h
    | succ fuel =>
      simp only [run, Option.some.injEq] at h
      subst h
      rfl
  cases hrun : failDic.Service 10 0 "s" with
  | none =>
    have hne : resultOf (failDic.Service 10 0 "s") =
        some (.error "failed instantiating service s: failed") := by decide
    rw [resultOf, hrun] at hne
    simp at hne
  | some o =>
    obtain ⟨h1, h2, h3⟩ :=
      claim_C3 failDic "s" (.fail "failed") "failed" rfl rfl herr 10 o hrun
    have hstr : ("failed instantiating service " ++ "s" ++ ": " ++ "failed" : String) =
        "failed instantiating service s: failed" := by decide
    constructor
    · rw [resultOf]
      simp [h1, hstr]
    · simp [h2]

/-- C8 (amended): the invariant holds at the granularity of whole
operations.  A cache entry present when an operation starts is never removed
or overwritten by that operation — `Freeze`, a successful `Store` or
`Register`, and any `Service` resolution all preserve every pre-existing
`services` binding with its value, and `Freeze`/`Store`/`Register` leave the
cache entirely unchanged.  Moreover every binding present after a `Service`
resolution either was already present with that value before it, or is for a
name registered in `serviceDefs`, holding the result of an invocation of the
factory registered under that name.  The original claim's stronger clause —
that a name is written at most once ever — fails within a single resolution
when a factory swallows a circular-dependency error, see the
counterexample. -/
theorem claim_C8 (dic : container) (m : String) (w : Value)
    (h : alGet dic.services m = some w) :
    alGet dic.Freeze.services m = some w ∧
    (∀ n v d', dic.Store n v = .ok d' → alGet d'.services m = some w) ∧
    (∀ n fn d', dic.Register n fn = .ok d' → alGet d'.services m = some w) ∧
    (∀ fuel depth name o, dic.Service fuel depth name = some o →
      alGet o.st.services m = some w) ∧
    dic.Freeze.services = dic.services ∧
    (∀ n v d', dic.Store n v = .ok d' → d'.services = dic.services) ∧
    (∀ n fn d', dic.Register n fn = .ok d' → d'.services = dic.services) ∧
    (∀ fuel depth name o n v, dic.Service fuel depth name = some o →
      alGet o.st.services n = some v →
      alGet dic.services n = some v ∨
        ∃ fn, alGet dic.serviceDefs n = some fn ∧
          ∃ g s d o', run g s d (.factory fn) = some o' ∧ o'.res = .ok v) := by
  refine ⟨h, ?_, ?_, ?_, rfl, ?_, ?_, ?_⟩
  · intro n v d' hs
    cases hf : dic.frozen with
    | true => simp [container.Store, hf] at hs
    | false =>
      simp only [container.Store, hf, Bool.false_eq_true, if_false,
        Except.ok.injEq] at hs
      subst hs
      exact h
  · intro n fn d' hs
    cases hf : dic.frozen with
    | true => simp [container.Register, hf] at hs
    | false =>
      simp only [container.Register, hf, Bool.false_eq_true, if_false,
        Except.ok.injEq] at hs
      subst hs
      exact h
  · intro fuel depth name o hrun
    exact run_preserves_cached fuel dic depth _ o m w hrun h
  · intro n v d' hs
    cases hf : dic.frozen with
    | true => simp [container.Store, hf] at hs
    | false =>
      simp only [container.Store, hf, Bool.false_eq_true, if_false,
        Except.ok.injEq] at hs
      subst hs
      rfl
  · intro n fn d' hs
    cases hf : dic.frozen with
    | true => simp [container.Register, hf] at hs
    | false =>
      simp only [container.Register, hf, Bool.false_eq_true, if_false,
        Except.ok.injEq] at hs
      subst hs
      rfl
  · intro fuel depth name o n v hrun hv
    exact run_cache_provenance fuel dic depth _ o n v hrun hv

/-- Witness for C8 on a container whose cache already holds `s1`: freezing,
storing, registering and resolving another name all keep the entry, and
every binding after a resolution is either pre-existing or produced by the
registered factory of its name. -/
theorem claim_C8_witness :
    alGet resolvedDic.services "s1" = some (.vstr "s1") ∧
    alGet resolvedDic.Freeze.services "s1" = some (.vstr "s1") ∧
    (∀ d', resolvedDic.Store "p" (.vint 4) = .ok d' →
      alGet d'.services "s1" = some (.vstr "s1")) ∧
    (∀ fuel depth name o, resolvedDic.Service fuel depth name = some o →
      alGet o.st.services "s1" = some (.vstr "s1")) ∧
    (∀ fuel depth name o n v, resolvedDic.Service fuel depth name = some o →
      alGet o.st.services n = some v →
      alGet resolvedDic.services n = some v ∨
        ∃ fn, alGet resolvedDic.serviceDefs n = some fn ∧
          ∃ g s d o', run g s d (.factory fn) = some o' ∧ o'.res = .ok v) :=
  have hc := claim_C8 resolvedDic "s1" (.vstr "s1") (by decide)
  ⟨by decide, hc.1, fun d' => hc.2.1 "p" (.vint 4) d', hc.2.2.2.1,
    hc.2.2.2.2.2.2.2⟩

/-- Counterexample to C8 as stated: in the single top-level `Service("a")`
call on `pathoDic`, the cache entry for `a` is written twice with different
values — first 1 by the inner re-entrant successful resolution, then
overwritten by 2 when the outer resolution completes — so an entry written
by a first successful resolution is not immutable. -/
theorem claim_C8_counterexample :
    writesTo (logOf pathoRun1) "a" = [.vint 1, .vint 2] ∧
    (pathoRun1.map fun o => alGet o.st.services "a") = some (some (.vint 2)) ∧
    Value.vint 1 ≠ Value.vint 2 := by
  decide

/-- C10: `Register` on an unfrozen container mutates only `serviceDefs`,
and re-registering a factory under an already-resolved name does not affect
`Service(name)`: the old cached instance is returned via the fast path, with
no event logged, so the new factory is never invoked. -/
theorem claim_C10 (dic : container) (n : String) (fn : Service) (v : Value)
    (hf : dic.frozen = false) (hc : alGet dic.services n = some v) :
    ∃ d', dic.Register n fn = .ok d' ∧
      d'.parameters = dic.parameters ∧ d'.services = dic.services ∧
      alGet d'.serviceDefs n = some fn ∧
      ∀ fuel depth, d'.Service (fuel + 1) depth n = some ⟨d', [], .ok v⟩ := by
  refine ⟨{ dic with serviceDefs := alPut dic.serviceDefs n fn }, ?_, rfl, rfl,
    alGet_put_self _ _ _, ?_⟩
  · simp [container.Register, hf]
  · intro fuel depth
    exact Service_fastPath _ fuel depth n v hc

/-- Witness for C10: re-registering `s1` with a factory returning `NEW` on a
container that already resolved `s1` still returns the old instance `s1`,
with an empty log. -/
theorem claim_C10_witness :
    ((resolvedDic.Register "s1" newS1fn).toOption.map
      (fun d' => resultOf (d'.Service 10 0 "s1"))) = some (some (.ok (.vstr "s1"))) ∧
    ((resolvedDic.Register "s1" newS1fn).toOption.map
      (fun d' => logOf (d'.Service 10 0 "s1"))) = some [] := by
  obtain ⟨d', h1, hp, hs, hd, hserv⟩ :=
    claim_C10 resolvedDic "s1" newS1fn (.vstr "s1") rfl (by decide)
  rw [h1]
  have h10 := hserv 9 0
  constructor
  · simp only [Except.toOption, Option.map]
    rw [resultOf, h10]
    rfl
  · simp only [Except.toOption, Option.map]
    rw [logOf, h10]
    rfl

end izidic
